import Mathlib

/-
  Verification of the video-recorder local-backup core:
  a shallow embedding of src/videoStorage.ts (IndexedDB-backed record store),
  src/app/uploadService.ts (mock / real / force-fail upload strategies) and
  src/app/page.tsx (handleUpload and the upload button handler).

  Modelling conventions:
  * A Blob is its byte list plus mime type; IndexedDB state is the list of
    stored records in insertion order (the object store is keyed by `id`).
  * Promise-returning functions become pure functions returning
    `Except StoreError _`; a rejected promise is an `error` value.
  * Sources of nondeterminism (Date.now(), Math.random(), fetch) become
    explicit parameters: `now`, `rand`, `shouldSucceed`, `fetchResult`.
  * An upload function's progress callbacks become the returned
    `List UploadProgress`: the notifications delivered, in order, to an
    observer when one is supplied (when no observer is supplied the calls
    are simply skipped, so the list is exactly the observer-visible trace).
-/

namespace VideoApp

/-- Binary payload plus mime type (the parts of a browser Blob the code uses). -/
structure Blob where
  data : List Nat
  mime : String
deriving DecidableEq, Repr

/-- Mirrors `interface StoredVideo` in videoStorage.ts. -/
structure StoredVideo where
  id : String
  blob : Blob
  timestamp : Nat
  uploaded : Bool
  fileName : String
deriving DecidableEq, Repr

/-- The contents of the `videos` object store, in insertion order. -/
abbrev Store := List StoredVideo

/-- Errors surfaced by store operations: `notFound` models the thrown
`Error('Video not found')`; `keyExists` models IndexedDB `add` rejecting on
a duplicate key. -/
inductive StoreError where
  | notFound
  | keyExists
deriving DecidableEq, Repr

/-- Key lookup in the object store (keyPath `id`). -/
def findVideo (s : Store) (id : String) : Option StoredVideo :=
  s.find? (fun v => v.id == id)

/-- Decimal rendering of a JS number interpolated into a template literal,
as in `video_${Date.now()}_...`. -/
def digitChar10 : Nat → Char
  | 0 => '0'
  | 1 => '1'
  | 2 => '2'
  | 3 => '3'
  | 4 => '4'
  | 5 => '5'
  | 6 => '6'
  | 7 => '7'
  | 8 => '8'
  | 9 => '9'
  | _ => '*'

def natCharsAux : Nat → Nat → List Char → List Char
  | 0, _, acc => acc
  | fuel + 1, n, acc =>
      if n < 10 then digitChar10 n :: acc
      else natCharsAux fuel (n / 10) (digitChar10 (n % 10) :: acc)

def natChars (n : Nat) : List Char := natCharsAux (n + 1) n []

def natToStr (n : Nat) : String := ⟨natChars n⟩

instance {ε α : Type} [DecidableEq ε] [DecidableEq α] :
    DecidableEq (Except ε α) := fun x y =>
  match x, y with
  | .ok a, .ok b =>
      if h : a = b then .isTrue (by simp [h]) else .isFalse (by simp [h])
  | .ok _, .error _ => .isFalse (by simp)
  | .error _, .ok _ => .isFalse (by simp)
  | .error e, .error f =>
      if h : e = f then .isTrue (by simp [h]) else .isFalse (by simp [h])

/-- The id generated by `saveVideo`:
`` `video_${Date.now()}_${Math.random().toString(36).substr(2, 9)}` ``. -/
def makeId (now : Nat) (rand : String) : String :=
  "video_" ++ natToStr now ++ "_" ++ rand

/-- Mirrors `saveVideo(blob)`: builds a fresh record with `uploaded: false`
and `timestamp: Date.now()`, then `store.add(video)`.  `add` rejects when the
key already exists, otherwise appends.  `now` is Date.now(), `rand` the
random base-36 suffix, `dateStr` the ISO date used in the file name. -/
def saveVideo (s : Store) (now : Nat) (rand : String) (blob : Blob)
    (dateStr : String) : Except StoreError (String × Store) :=
  let id := makeId now rand
  let video : StoredVideo :=
    { id := id, blob := blob, timestamp := now, uploaded := false,
      fileName := "recording_" ++ dateStr ++ ".webm" }
  if (findVideo s id).isSome then .error .keyExists
  else .ok (id, s ++ [video])

/-- Mirrors `getAllVideos()` (IndexedDB `getAll`). -/
def getAllVideos (s : Store) : List StoredVideo := s

/-- Mirrors `getVideo(id)`; `request.result || null` becomes `Option`. -/
def getVideo (s : Store) (id : String) : Option StoredVideo :=
  findVideo s id

/-- IndexedDB `put`: replaces the record under the same key, or inserts. -/
def putVideo (s : Store) (v : StoredVideo) : Store :=
  if (findVideo s v.id).isSome then
    s.map (fun w => if w.id == v.id then v else w)
  else s ++ [v]

/-- Mirrors `markAsUploaded(id)`: `getVideo`, throw `'Video not found'` when
absent, else set `uploaded = true` and `put` the record back. -/
def markAsUploaded (s : Store) (id : String) : Except StoreError Store :=
  match getVideo s id with
  | none => .error .notFound
  | some v => .ok (putVideo s { v with uploaded := true })

/-- Mirrors `deleteVideo(id)`: IndexedDB `delete` succeeds whether or not the
key is present, so the promise always resolves (never a NotFound error). -/
def deleteVideo (s : Store) (id : String) : Except StoreError Store :=
  .ok (s.filter (fun v => v.id != id))

/- ---------------- uploadService.ts ---------------- -/

/-- Mirrors `type UploadStatus`. -/
inductive UploadStatus where
  | idle
  | uploading
  | success
  | failed
deriving DecidableEq, Repr

/-- Mirrors `interface UploadResult`. -/
structure UploadResult where
  success : Bool
  message : String
  uploadedUrl : Option String := none
deriving DecidableEq, Repr

/-- Mirrors `interface UploadProgress` (`progress` is the percent 0-100). -/
structure UploadProgress where
  status : UploadStatus
  progress : Nat
  message : String
deriving DecidableEq, Repr

/-- Mirrors `mockUpload(blob, onProgress)`: eleven `uploading` notifications
at 0,10,...,100, then a terminal notification and result decided by
`Math.random() > 0.3` (the `shouldSucceed` parameter); `now` is the
Date.now() used in the mock CDN url. -/
def mockUpload (blob : Blob) (shouldSucceed : Bool) (now : Nat) :
    List UploadProgress × UploadResult :=
  let steps := (List.range 11).map (fun k =>
    { status := .uploading, progress := 10 * k,
      message := "Uploading... " ++ natToStr (10 * k) ++ "%" : UploadProgress })
  if shouldSucceed then
    let mockUrl := "https://mock-cdn.example.com/videos/" ++ natToStr now ++ ".webm"
    (steps ++ [{ status := .success, progress := 100, message := "Upload successful!" }],
     { success := true, message := "Video uploaded successfully",
       uploadedUrl := some mockUrl })
  else
    (steps ++ [{ status := .failed, progress := 0,
                 message := "Upload failed - Network error" }],
     { success := false, message := "Upload failed - Network error simulated" })

/-- Mirrors `realUpload(blob, onProgress)`: one coarse `uploading` point at 50,
then success (with the url parsed from the response) or the caught error's
message.  `fetchResult` stands for the outcome of the fetch/json pipeline. -/
def realUpload (blob : Blob) (fetchResult : Except String String) :
    List UploadProgress × UploadResult :=
  match fetchResult with
  | .ok url =>
      ([{ status := .uploading, progress := 50, message := "Uploading to server..." },
        { status := .success, progress := 100, message := "Upload successful!" }],
       { success := true, message := "Video uploaded successfully",
         uploadedUrl := some url })
  | .error msg =>
      ([{ status := .uploading, progress := 50, message := "Uploading to server..." },
        { status := .failed, progress := 0, message := "Upload failed: " ++ msg }],
       { success := false, message := "Upload failed: " ++ msg })

/-- Mirrors `forceFailUpload(onProgress)`: `uploading` at 0,20,40,60, then a
deterministic failure.  It takes no blob and consults no randomness. -/
def forceFailUpload : List UploadProgress × UploadResult :=
  let steps := (List.range 4).map (fun k =>
    { status := .uploading, progress := 20 * k,
      message := "Uploading... " ++ natToStr (20 * k) ++ "%" : UploadProgress })
  (steps ++ [{ status := .failed, progress := 0,
               message := "Network connection lost" }],
   { success := false, message := "Network connection lost - Upload failed" })

/- ---------------- page.tsx ---------------- -/

/-- Mirrors the `uploadMode` state: `'mock' | 'real' | 'force-fail'`. -/
inductive UploadMode where
  | mock
  | real
  | forceFail
deriving DecidableEq, Repr

/-- The environment an upload run draws on: the mock coin flip, the clock,
and the real-transport outcome. -/
structure UploadEnv where
  mockSucceeds : Bool
  now : Nat
  fetchResult : Except String String

/-- The dispatch inside `handleUpload` over the three upload modes. -/
def runStrategy (mode : UploadMode) (blob : Blob) (env : UploadEnv) :
    List UploadProgress × UploadResult :=
  match mode with
  | .mock => mockUpload blob env.mockSucceeds env.now
  | .real => realUpload blob env.fetchResult
  | .forceFail => forceFailUpload

/-- The effect of one `handleUpload` run: the progress states the page
observer received in order, the strategy's result, whether
`videoStorage.markAsUploaded` was invoked, and the resulting store (an
`error` when `markAsUploaded` rejected). -/
structure HandleResult where
  trace : List UploadProgress
  result : UploadResult
  markCalled : Bool
  store : Except StoreError Store
deriving Repr

/-- The initial `setUploadProgress({status:'uploading', progress:0, ...})`. -/
def startingProgress : UploadProgress :=
  { status := .uploading, progress := 0, message := "Starting upload..." }

/-- Mirrors `handleUpload(videoId, blob)`: dispatches on the mode, and only
when `result.success` calls `markAsUploaded(videoId)`. -/
def handleUpload (s : Store) (videoId : String) (blob : Blob)
    (mode : UploadMode) (env : UploadEnv) : HandleResult :=
  let tr := runStrategy mode blob env
  if tr.2.success then
    { trace := startingProgress :: tr.1, result := tr.2, markCalled := true,
      store := markAsUploaded s videoId }
  else
    { trace := startingProgress :: tr.1, result := tr.2, markCalled := false,
      store := .ok s }

/-- The outcome of the upload button's onClick: whether a transport strategy
was invoked, and the `handleUpload` effect when it was. -/
structure ClickResult where
  transportInvoked : Bool
  handled : Option HandleResult
deriving Repr

/-- Mirrors the upload button onClick in page.tsx: `getVideo(recordedVideoId)`
first; only `if (video)` does it call `handleUpload(recordedVideoId,
video.blob)` — when the record is absent it silently does nothing. -/
def uploadButtonClick (s : Store) (recordedVideoId : String)
    (mode : UploadMode) (env : UploadEnv) : ClickResult :=
  match getVideo s recordedVideoId with
  | none => { transportInvoked := false, handled := none }
  | some video =>
      { transportInvoked := true,
        handled := some (handleUpload s recordedVideoId video.blob mode env) }

/-- The error (if any) a click run surfaces to the page. -/
def clickError (c : ClickResult) : Option StoreError :=
  match c.handled with
  | none => none
  | some h =>
      match h.store with
      | .error e => some e
      | .ok _ => none

/-- Re-upload is permitted in the UI exactly when the record is present and
not yet uploaded (the list renders the Upload button under `!video.uploaded`). -/
def uploadPermitted (s : Store) (id : String) : Bool :=
  match getVideo s id with
  | some v => !v.uploaded
  | none => false

/-- A terminal progress notification (`success` or `failed`). -/
def isTerminal (p : UploadProgress) : Bool :=
  p.status == .success || p.status == .failed

/-- Non-decreasing check over a percent sequence. -/
def nonDecr : List Nat → Bool
  | [] => true
  | [_] => true
  | a :: b :: t => a ≤ b && nonDecr (b :: t)

/-- One store-mutating operation, for the write-once / monotonicity invariant.
Each constructor applies the corresponding service call; a rejected promise
leaves the store as it was. -/
inductive StoreOp where
  | save (now : Nat) (rand : String) (blob : Blob) (dateStr : String)
  | mark (id : String)
  | del (id : String)

def applyOp (s : Store) : StoreOp → Store
  | .save now rand blob dateStr =>
      match saveVideo s now rand blob dateStr with
      | .ok (_, s') => s'
      | .error _ => s
  | .mark id =>
      match markAsUploaded s id with
      | .ok s' => s'
      | .error _ => s
  | .del id =>
      match deleteVideo s id with
      | .ok s' => s'
      | .error _ => s

/- ---------------- concrete fixtures ---------------- -/

def blob0 : Blob := { data := [1, 2, 3], mime := "video/webm" }

def vid0 : StoredVideo :=
  { id := "video_1_a", blob := blob0, timestamp := 1, uploaded := false,
    fileName := "recording_2024-01-06.webm" }

def vid0u : StoredVideo := { vid0 with uploaded := true }

def vid5 : StoredVideo :=
  { id := "video_5_abc", blob := blob0, timestamp := 5, uploaded := false,
    fileName := "recording_2024-01-06.webm" }

def env0 : UploadEnv :=
  { mockSucceeds := true, now := 0, fetchResult := .ok "https://httpbin.org/post" }

/- ---------------- helper definitions for the numeric rendering ---------------- -/

/-- Inverse of `digitChar10` on decimal digits. -/
def charVal10 : Char → Nat
  | '0' => 0
  | '1' => 1
  | '2' => 2
  | '3' => 3
  | '4' => 4
  | '5' => 5
  | '6' => 6
  | '7' => 7
  | '8' => 8
  | '9' => 9
  | _ => 0

/- ---------------- store lemmas ---------------- -/

theorem findVideo_cons (v : StoredVideo) (s : Store) (id : String) :
    findVideo (v :: s) id = if v.id == id then some v else findVideo s id := by
  simp only [findVideo, List.find?_cons]
  cases h : (v.id == id) <;> simp [h]

theorem findVideo_id_eq {s : Store} {id : String} {v : StoredVideo}
    (h : findVideo s id = some v) : v.id = id := by
  have := List.find?_some h
  simpa using this

theorem findVideo_mem {s : Store} {id : String} {v : StoredVideo}
    (h : findVideo s id = some v) : v ∈ s :=
  List.mem_of_find?_eq_some h

theorem findVideo_map_keep (g : StoredVideo → StoredVideo)
    (hg : ∀ w, (g w).id = w.id) (s : Store) (id : String) :
    findVideo (s.map g) id = (findVideo s id).map g := by
  simp only [findVideo, List.find?_map]
  have hp : ((fun v : StoredVideo => v.id == id) ∘ g)
      = (fun v : StoredVideo => v.id == id) := by
    funext w
    simp [Function.comp, hg w]
  rw [hp]

theorem getVideo_append_left {s : Store} {id : String} {r : StoredVideo}
    (t : Store) (h : getVideo s id = some r) :
    getVideo (s ++ t) id = some r := by
  have hf : List.find? (fun v : StoredVideo => v.id == id) s = some r := h
  simp [getVideo, findVideo, List.find?_append, hf]

theorem putVideo_found {s : Store} {id : String} {v' : StoredVideo}
    (hid : v'.id = id) (h : (findVideo s id).isSome = true) :
    putVideo s v' = s.map (fun w => if w.id == id then v' else w) := by
  simp only [putVideo, hid, h, if_true]

theorem findVideo_map_replace {s : Store} {id : String} {v v' : StoredVideo}
    (hid : v'.id = id) (h : findVideo s id = some v) :
    findVideo (s.map (fun w => if w.id == id then v' else w)) id = some v' := by
  have hg : ∀ w : StoredVideo,
      ((fun w => if w.id == id then v' else w) w).id = w.id := by
    intro w
    by_cases hw : w.id = id
    · simp [hw, hid]
    · simp [hw]
  rw [findVideo_map_keep _ hg, h]
  have hv : v.id = id := findVideo_id_eq h
  simp [hv]

theorem map_replace_idem (s : Store) (id : String) (v' : StoredVideo)
    (hid : v'.id = id) :
    (s.map (fun w => if w.id == id then v' else w)).map
        (fun w => if w.id == id then v' else w)
      = s.map (fun w => if w.id == id then v' else w) := by
  rw [List.map_map]
  apply List.map_congr_left
  intro w _
  by_cases hw : w.id = id
  · simp [Function.comp, hw, hid]
  · simp [Function.comp, hw]

theorem getVideo_filter_ne (s : Store) (id : String) :
    getVideo (s.filter (fun v => v.id != id)) id = none := by
  simp only [getVideo, findVideo, List.find?_eq_none]
  intro x hx
  have := List.of_mem_filter hx
  simp_all

/- ---------------- decimal rendering lemmas ---------------- -/

theorem charVal10_digitChar10 {d : Nat} (h : d < 10) :
    charVal10 (digitChar10 d) = d := by
  interval_cases d <;> rfl

theorem digitChar10_ne_underscore (d : Nat) : digitChar10 d ≠ '_' := by
  unfold digitChar10
  split <;> decide

theorem natCharsAux_acc (fuel : Nat) : ∀ (n : Nat) (acc : List Char),
    natCharsAux fuel n acc = natCharsAux fuel n [] ++ acc := by
  induction fuel with
  | zero => intro n acc; rfl
  | succ f ih =>
    intro n acc
    by_cases h : n < 10
    · simp [natCharsAux, h]
    · simp only [natCharsAux, h, if_false]
      rw [ih (n / 10) (digitChar10 (n % 10) :: acc),
        ih (n / 10) [digitChar10 (n % 10)]]
      simp

theorem natCharsAux_fuel (fuel1 : Nat) : ∀ (fuel2 n : Nat) (acc : List Char),
    n < fuel1 → n < fuel2 →
    natCharsAux fuel1 n acc = natCharsAux fuel2 n acc := by
  induction fuel1 with
  | zero => intro fuel2 n acc h1 _; omega
  | succ f1 ih =>
    intro fuel2 n acc h1 h2
    cases fuel2 with
    | zero => omega
    | succ f2 =>
      by_cases h : n < 10
      · simp [natCharsAux, h]
      · simp only [natCharsAux, h, if_false]
        have hdiv : n / 10 < n := Nat.div_lt_self (by omega) (by omega)
        exact ih f2 (n / 10) _ (by omega) (by omega)

/-- The recurrence the renderer satisfies: most-significant digits first. -/
theorem natChars_eq (n : Nat) :
    natChars n = if n < 10 then [digitChar10 n]
      else natChars (n / 10) ++ [digitChar10 (n % 10)] := by
  show natCharsAux (n + 1) n [] = _
  by_cases h : n < 10
  · simp [natCharsAux, h]
  · simp only [natCharsAux, h, if_false]
    rw [natCharsAux_acc n (n / 10) [digitChar10 (n % 10)]]
    have hdiv : n / 10 < n := Nat.div_lt_self (by omega) (by omega)
    rw [natCharsAux_fuel n (n / 10 + 1) (n / 10) [] (by omega) (by omega)]
    rfl

theorem foldl_natChars (n : Nat) : ∀ a : Nat,
    List.foldl (fun acc c => 10 * acc + charVal10 c) a (natChars n)
      = a * 10 ^ (natChars n).length + n := by
  induction n using Nat.strong_induction_on with
  | _ n ih =>
    intro a
    rw [natChars_eq]
    split
    case isTrue h =>
      simp [charVal10_digitChar10 h, Nat.mul_comm]
    case isFalse h =>
      rw [List.foldl_append, ih (n / 10) (Nat.div_lt_self (by omega) (by omega)) a]
      have hmod : n % 10 < 10 := Nat.mod_lt _ (by omega)
      have hdm : 10 * (n / 10) + n % 10 = n := Nat.div_add_mod n 10
      simp only [List.foldl_cons, List.foldl_nil, List.length_append,
        List.length_cons, List.length_nil, charVal10_digitChar10 hmod]
      calc 10 * (a * 10 ^ (natChars (n / 10)).length + n / 10) + n % 10
          = a * 10 ^ (natChars (n / 10)).length * 10 + (10 * (n / 10) + n % 10) := by
            ring
        _ = a * 10 ^ ((natChars (n / 10)).length + (0 + 1)) + n := by
            rw [hdm]
            ring

theorem natChars_injective : Function.Injective natChars := by
  intro m n h
  have hm := foldl_natChars m 0
  have hn := foldl_natChars n 0
  rw [h] at hm
  simp only [Nat.zero_mul, Nat.zero_add] at hm hn
  exact hm.symm.trans hn

theorem underscore_not_mem_natChars (n : Nat) : '_' ∉ natChars n := by
  induction n using Nat.strong_induction_on with
  | _ n ih =>
    rw [natChars_eq]
    split
    case isTrue h =>
      simp [(digitChar10_ne_underscore n).symm]
    case isFalse h =>
      simp only [List.mem_append, List.mem_singleton]
      push_neg
      exact ⟨ih (n / 10) (Nat.div_lt_self (by omega) (by omega)),
        (digitChar10_ne_underscore (n % 10)).symm⟩

theorem natToStr_injective : Function.Injective natToStr := by
  intro m n h
  exact natChars_injective (congrArg String.data h)

/-- Splitting at a separator absent from both left parts is unambiguous. -/
theorem append_sep_inj (a : List Char) : ∀ (b x y : List Char),
    '_' ∉ a → '_' ∉ b → a ++ '_' :: x = b ++ '_' :: y → a = b ∧ x = y := by
  induction a with
  | nil =>
    intro b x y _ hb h
    cases b with
    | nil => simpa using h
    | cons d u =>
      simp only [List.nil_append, List.cons_append, List.cons.injEq] at h
      exact absurd (h.1 ▸ List.mem_cons_self d u) hb
  | cons c t ih =>
    intro b x y ha hb h
    cases b with
    | nil =>
      simp only [List.cons_append, List.nil_append, List.cons.injEq] at h
      exact absurd (h.1 ▸ List.mem_cons_self c t) ha
    | cons d u =>
      simp only [List.cons_append, List.cons.injEq] at h
      obtain ⟨rfl, h2⟩ := h
      have ha' : '_' ∉ t := fun hm => ha (List.mem_cons_of_mem _ hm)
      have hb' : '_' ∉ u := fun hm => hb (List.mem_cons_of_mem _ hm)
      obtain ⟨rfl, rfl⟩ := ih u x y ha' hb' h2
      exact ⟨rfl, rfl⟩

/-- Distinct timestamps give distinct generated ids, provided the random
suffixes contain no underscore (Math.random().toString(36) yields only
digits and lowercase letters). -/
theorem makeId_inj_of_ne_now {t1 t2 : Nat} {r1 r2 : String}
    (hne : t1 ≠ t2)
    (h1 : '_' ∉ r1.data) (h2 : '_' ∉ r2.data) :
    makeId t1 r1 ≠ makeId t2 r2 := by
  intro h
  have hd := congrArg String.data h
  simp only [makeId, String.data_append, List.append_assoc] at hd
  have hd2 := List.append_cancel_left hd
  have hsep : (natToStr t1).data ++ '_' :: r1.data
      = (natToStr t2).data ++ '_' :: r2.data := by
    simpa using hd2
  have := append_sep_inj (natToStr t1).data (natToStr t2).data r1.data r2.data
    (underscore_not_mem_natChars t1) (underscore_not_mem_natChars t2) hsep
  exact hne (natChars_injective this.1)

/- ---------------- claim theorems ---------------- -/

/-- C1: for every record id and upload attempt whose Outcome has
success = false, handleUpload leaves the store untouched (markAsUploaded is
not invoked — markCalled is false), the record is still present with
uploaded = false, and a re-upload of the same id is still permitted. -/
theorem upload_failure_leaves_store_untouched
    (s : Store) (id : String) (blob : Blob) (mode : UploadMode) (env : UploadEnv)
    (hfail : (handleUpload s id blob mode env).result.success = false) :
    (handleUpload s id blob mode env).store = Except.ok s ∧
    (handleUpload s id blob mode env).markCalled = false ∧
    (∀ v, getVideo s id = some v → v.uploaded = false →
      ∃ s2, (handleUpload s id blob mode env).store = Except.ok s2 ∧
        getVideo s2 id = some v ∧ uploadPermitted s2 id = true) := by
  by_cases h : (runStrategy mode blob env).2.success = true
  · exfalso
    simp [handleUpload, h] at hfail
  · simp only [Bool.not_eq_true] at h
    refine ⟨by simp [handleUpload, h], by simp [handleUpload, h], ?_⟩
    intro v hv hvu
    exact ⟨s, by simp [handleUpload, h], hv, by simp [uploadPermitted, hv, hvu]⟩

theorem upload_failure_leaves_store_untouched_witness :
    (handleUpload [vid0] "video_1_a" blob0 .forceFail env0).store
      = Except.ok [vid0] ∧
    (handleUpload [vid0] "video_1_a" blob0 .forceFail env0).markCalled = false :=
  have h := upload_failure_leaves_store_untouched [vid0] "video_1_a" blob0
    .forceFail env0 (by decide)
  ⟨h.1, h.2.1⟩

/-- C2: when saveVideo succeeds, fetching the returned id yields a record
whose payload equals the saved payload byte for byte. -/
theorem create_get_roundtrip (s : Store) (now : Nat) (rand : String)
    (blob : Blob) (dateStr : String) (id : String) (s' : Store)
    (h : saveVideo s now rand blob dateStr = .ok (id, s')) :
    ∃ v, getVideo s' id = some v ∧ v.blob = blob := by
  rcases hfind : findVideo s (makeId now rand) with _ | v0
  · simp only [saveVideo, hfind, Option.isSome_none, Bool.false_eq_true, if_false,
      Except.ok.injEq, Prod.mk.injEq] at h
    obtain ⟨rfl, rfl⟩ := h
    refine ⟨⟨makeId now rand, blob, now, false,
      "recording_" ++ dateStr ++ ".webm"⟩, ?_, rfl⟩
    simp only [findVideo] at hfind
    simp [getVideo, findVideo, List.find?_append, hfind, List.find?_cons]
  · simp [saveVideo, hfind] at h

theorem create_get_roundtrip_witness :
    ∃ v, getVideo [vid5] "video_5_abc" = some v ∧ v.blob = blob0 :=
  create_get_roundtrip [] 5 "abc" blob0 "2024-01-06" "video_5_abc" [vid5]
    (by decide)

/-- C3: markAsUploaded fails with NotFound when the id is absent; when the
record exists, a second call is an error-free no-op that leaves
uploaded = true. -/
theorem markUploaded_notfound_and_idempotent (s : Store) (id : String) :
    (getVideo s id = none → markAsUploaded s id = .error .notFound) ∧
    (∀ s1, markAsUploaded s id = .ok s1 →
      markAsUploaded s1 id = .ok s1 ∧
      ∃ v, getVideo s1 id = some v ∧ v.uploaded = true) := by
  constructor
  · intro h
    simp [markAsUploaded, h]
  · intro s1 h
    rcases hv : getVideo s id with _ | v
    · simp [markAsUploaded, hv] at h
    · have hvf : findVideo s id = some v := hv
      have hvid : v.id = id := findVideo_id_eq hvf
      have hid' : ({ v with uploaded := true } : StoredVideo).id = id := hvid
      have hsome : (findVideo s id).isSome = true := by rw [hvf]; rfl
      have hput := putVideo_found hid' hsome
      have hmark1 : markAsUploaded s id
          = .ok (s.map (fun w =>
              if w.id == id then { v with uploaded := true } else w)) := by
        simp only [markAsUploaded, getVideo, hvf]
        rw [hput]
      rw [hmark1, Except.ok.injEq] at h
      subst h
      have hfind1 := findVideo_map_replace hid' hvf
      have hsome1 : (findVideo (s.map (fun w =>
          if w.id == id then { v with uploaded := true } else w)) id).isSome
          = true := by rw [hfind1]; rfl
      have hmark2 : markAsUploaded (s.map (fun w =>
          if w.id == id then { v with uploaded := true } else w)) id
          = .ok (putVideo (s.map (fun w =>
              if w.id == id then { v with uploaded := true } else w))
              { v with uploaded := true }) := by
        simp only [markAsUploaded, getVideo, hfind1]
      refine ⟨?_, { v with uploaded := true }, hfind1, rfl⟩
      rw [hmark2, putVideo_found hid' hsome1, map_replace_idem s id _ hid']

theorem markUploaded_notfound_and_idempotent_witness :
    markAsUploaded ([] : Store) "video_1_a" = .error .notFound ∧
    (markAsUploaded [vid0u] "video_1_a" = .ok [vid0u] ∧
      ∃ v, getVideo [vid0u] "video_1_a" = some v ∧ v.uploaded = true) :=
  ⟨(markUploaded_notfound_and_idempotent [] "video_1_a").1 rfl,
   (markUploaded_notfound_and_idempotent [vid0] "video_1_a").2 [vid0u] (by decide)⟩

/-- C4 counterexample: deleting an absent id resolves successfully — the
IndexedDB delete request ignores missing keys — rather than failing with
NotFound as the claim states. -/
theorem delete_absent_no_notfound :
    getVideo ([] : Store) "video_1_a" = none ∧
    deleteVideo ([] : Store) "video_1_a" = Except.ok [] ∧
    deleteVideo ([] : Store) "video_1_a" ≠ Except.error StoreError.notFound := by
  refine ⟨rfl, rfl, ?_⟩
  intro h
  simp [deleteVideo] at h

/-- C4 amended: delete removes the record permanently; deleting an absent or
already-deleted id never errors — it is a silent no-op that does not
resurrect the record, and no NotFound is surfaced. -/
theorem delete_removes_and_silent_noop (s : Store) (id : String) :
    ∃ s', deleteVideo s id = Except.ok s' ∧
      getVideo s' id = none ∧
      deleteVideo s' id = Except.ok s' ∧
      ∀ e : StoreError, deleteVideo s id ≠ Except.error e := by
  refine ⟨s.filter (fun v => v.id != id), rfl, getVideo_filter_ne s id, ?_, ?_⟩
  · simp [deleteVideo, List.filter_filter]
  · intro e h
    simp [deleteVideo] at h

theorem delete_removes_and_silent_noop_witness :
    ∃ s', deleteVideo [vid0] "video_1_a" = Except.ok s' ∧
      getVideo s' "video_1_a" = none ∧
      deleteVideo s' "video_1_a" = Except.ok s' ∧
      ∀ e : StoreError, deleteVideo [vid0] "video_1_a" ≠ Except.error e :=
  delete_removes_and_silent_noop [vid0] "video_1_a"

/-- C5 counterexample: with the record absent, the upload button handler
silently skips — the transport is indeed never invoked, but no NotFound
failure is surfaced, contrary to the claim. -/
theorem click_absent_silently_skips :
    getVideo ([] : Store) "video_1_a" = none ∧
    (uploadButtonClick [] "video_1_a" .mock env0).transportInvoked = false ∧
    clickError (uploadButtonClick [] "video_1_a" .mock env0) = none :=
  ⟨rfl, rfl, rfl⟩

/-- C5 amended: the upload button handler fetches the record by id from the
store before any transport activity; when the record is absent the transport
strategy is never invoked and the handler silently skips (no NotFound error
is surfaced); when present, the freshly fetched record's blob is what gets
uploaded. -/
theorem click_fetches_before_transport (s : Store) (id : String)
    (mode : UploadMode) (env : UploadEnv) :
    (getVideo s id = none →
      uploadButtonClick s id mode env
        = { transportInvoked := false, handled := none }) ∧
    (∀ v, getVideo s id = some v →
      uploadButtonClick s id mode env
        = { transportInvoked := true,
            handled := some (handleUpload s id v.blob mode env) }) := by
  constructor
  · intro h
    simp [uploadButtonClick, h]
  · intro v h
    simp [uploadButtonClick, h]

theorem click_fetches_before_transport_witness :
    uploadButtonClick [] "video_1_a" .mock env0
      = { transportInvoked := false, handled := none } ∧
    uploadButtonClick [vid0] "video_1_a" .forceFail env0
      = { transportInvoked := true,
          handled := some (handleUpload [vid0] "video_1_a" vid0.blob
            .forceFail env0) } :=
  ⟨(click_fetches_before_transport [] "video_1_a" .mock env0).1 rfl,
   (click_fetches_before_transport [vid0] "video_1_a" .forceFail env0).2 vid0
     (by decide)⟩

/-- C6 counterexample: in the force-fail strategy the observer receives
percents 0,20,40,60 and then 0 on the terminal failed notification, so the
percent sequence is not monotonically non-decreasing up to and including the
terminal notification. -/
theorem forceFail_percent_not_monotone :
    forceFailUpload.1.map (fun p => p.progress) = [0, 20, 40, 60, 0] ∧
    nonDecr (forceFailUpload.1.map (fun p => p.progress)) = false :=
  ⟨by decide, by decide⟩

/-- C6 amended: within a single upload call the notifications are delivered
in order and the percent values are monotonically non-decreasing up to but
excluding the terminal notification; the terminal notification (always the
last one) carries percent 100 on success and is reset to 0 on failure. -/
theorem progress_monotone_until_terminal (mode : UploadMode) (blob : Blob)
    (env : UploadEnv) :
    nonDecr (((runStrategy mode blob env).1.dropLast).map
      (fun p => p.progress)) = true ∧
    ((runStrategy mode blob env).1.getLast?).map (fun p => p.progress)
      = some (if (runStrategy mode blob env).2.success then 100 else 0) := by
  cases mode
  case mock =>
    cases hb : env.mockSucceeds
    all_goals simp only [runStrategy, hb]
    all_goals exact ⟨rfl, rfl⟩
  case real =>
    rcases hf : env.fetchResult with e | u
    all_goals simp only [runStrategy, hf]
    all_goals exact ⟨rfl, rfl⟩
  case forceFail =>
    exact ⟨rfl, rfl⟩

/-- C7: every strategy variant delivers exactly one terminal notification to
a supplied observer, it is the final one, and its status (success/failed)
matches the returned Outcome.success. -/
theorem terminal_exactly_once_matches (mode : UploadMode) (blob : Blob)
    (env : UploadEnv) :
    ((runStrategy mode blob env).1.filter isTerminal).length = 1 ∧
    ((runStrategy mode blob env).1.getLast?).map (fun p => p.status)
      = some (if (runStrategy mode blob env).2.success
          then UploadStatus.success else UploadStatus.failed) := by
  cases mode
  case mock =>
    cases hb : env.mockSucceeds
    all_goals simp only [runStrategy, hb]
    all_goals exact ⟨rfl, rfl⟩
  case real =>
    rcases hf : env.fetchResult with e | u
    all_goals simp only [runStrategy, hf]
    all_goals exact ⟨rfl, rfl⟩
  case forceFail =>
    exact ⟨rfl, rfl⟩

/-- C8: a successful create returns the id video_(timestamp)_(random suffix),
persists the record with uploaded = false and creation-time timestamp under
that id, and ids generated at distinct times are distinct (the base-36
random suffix never contains an underscore). -/
theorem create_generates_timestamped_unique_id (s : Store) (now : Nat)
    (rand : String) (blob : Blob) (dateStr : String) (id : String) (s' : Store)
    (h : saveVideo s now rand blob dateStr = .ok (id, s')) :
    id = "video_" ++ natToStr now ++ "_" ++ rand ∧
    (∃ v, getVideo s' id = some v ∧ v.uploaded = false ∧ v.timestamp = now) ∧
    (∀ now2 rand2, now ≠ now2 → '_' ∉ rand.data → '_' ∉ rand2.data →
      makeId now rand ≠ makeId now2 rand2) := by
  rcases hfind : findVideo s (makeId now rand) with _ | v0
  · simp only [saveVideo, hfind, Option.isSome_none, Bool.false_eq_true, if_false,
      Except.ok.injEq, Prod.mk.injEq] at h
    obtain ⟨rfl, rfl⟩ := h
    refine ⟨rfl, ⟨⟨makeId now rand, blob, now, false,
      "recording_" ++ dateStr ++ ".webm"⟩, ?_, rfl, rfl⟩, ?_⟩
    · simp only [findVideo] at hfind
      simp [getVideo, findVideo, List.find?_append, hfind, List.find?_cons]
    · intro now2 rand2 hne h1 h2
      exact makeId_inj_of_ne_now hne h1 h2
  · simp [saveVideo, hfind] at h

theorem create_generates_timestamped_unique_id_witness :
    ("video_5_abc" : String) = "video_" ++ natToStr 5 ++ "_" ++ "abc" ∧
    makeId 5 "abc" ≠ makeId 6 "xyz" := by
  have h := create_generates_timestamped_unique_id [] 5 "abc" blob0 "2024-01-06"
    "video_5_abc" [vid5] (by decide)
  exact ⟨h.1, h.2.2 6 "xyz" (by decide) (by decide) (by decide)⟩

/-- C9: every store operation preserves an existing record's payload bytes,
timestamp and fileName, and the uploaded flag never reverts from true to
false — markAsUploaded writes back the same record changing only uploaded. -/
theorem store_ops_preserve_payload_and_monotone (s : Store) (op : StoreOp)
    (id : String) (r r' : StoredVideo)
    (h : getVideo s id = some r)
    (h' : getVideo (applyOp s op) id = some r') :
    r'.id = r.id ∧ r'.blob = r.blob ∧ r'.timestamp = r.timestamp ∧
    r'.fileName = r.fileName ∧ (r.uploaded = true → r'.uploaded = true) := by
  cases op with
  | save now rand blob dateStr =>
    rcases hfind : findVideo s (makeId now rand) with _ | v0
    · have happ : applyOp s (.save now rand blob dateStr)
          = s ++ [⟨makeId now rand, blob, now, false,
              "recording_" ++ dateStr ++ ".webm"⟩] := by
        simp [applyOp, saveVideo, hfind]
      rw [happ, getVideo_append_left _ h] at h'
      obtain rfl : r = r' := Option.some.inj h'
      exact ⟨rfl, rfl, rfl, rfl, fun hu => hu⟩
    · have happ : applyOp s (.save now rand blob dateStr) = s := by
        simp [applyOp, saveVideo, hfind]
      rw [happ, h] at h'
      obtain rfl : r = r' := Option.some.inj h'
      exact ⟨rfl, rfl, rfl, rfl, fun hu => hu⟩
  | mark mid =>
    rcases hm : getVideo s mid with _ | v
    · have happ : applyOp s (.mark mid) = s := by
        simp [applyOp, markAsUploaded, hm]
      rw [happ, h] at h'
      obtain rfl : r = r' := Option.some.inj h'
      exact ⟨rfl, rfl, rfl, rfl, fun hu => hu⟩
    · have hvf : findVideo s mid = some v := hm
      have hvid : v.id = mid := findVideo_id_eq hvf
      have hid' : ({ v with uploaded := true } : StoredVideo).id = mid := hvid
      have hsome : (findVideo s mid).isSome = true := by rw [hvf]; rfl
      have happ : applyOp s (.mark mid)
          = s.map (fun w =>
              if w.id == mid then { v with uploaded := true } else w) := by
        simp only [applyOp, markAsUploaded, getVideo, hvf]
        rw [putVideo_found hid' hsome]
      have hg : ∀ w : StoredVideo,
          ((fun w => if w.id == mid then { v with uploaded := true } else w) w).id
            = w.id := by
        intro w
        by_cases hw : w.id = mid
        · simp [hw, hvid]
        · simp [hw]
      rw [happ, show getVideo (s.map (fun w =>
          if w.id == mid then { v with uploaded := true } else w)) id
          = (findVideo s id).map _ from findVideo_map_keep _ hg s id,
        show findVideo s id = some r from h] at h'
      simp only [Option.map_some'] at h'
      by_cases hw : r.id = mid
      · have hrid : r.id = id := findVideo_id_eq (show findVideo s id = some r from h)
        have hidm : id = mid := by rw [← hrid, hw]
        subst hidm
        have hrv : r = v := by
          rw [h] at hm
          exact Option.some.inj hm
        subst hrv
        simp only [hw, beq_self_eq_true, if_true] at h'
        obtain rfl := Option.some.inj h'
        simp [hw]
      · simp only [show (r.id == mid) = false by simp [hw], Bool.false_eq_true,
          if_false] at h'
        obtain rfl := Option.some.inj h'
        exact ⟨rfl, rfl, rfl, rfl, fun hu => hu⟩
  | del did =>
    have happ : applyOp s (.del did) = s.filter (fun w => w.id != did) := by
      simp [applyOp, deleteVideo]
    rw [happ] at h'
    by_cases hd : id = did
    · subst hd
      rw [getVideo_filter_ne] at h'
      cases h'
    · have hsame : getVideo (s.filter (fun w => w.id != did)) id
          = getVideo s id := by
        simp only [getVideo, findVideo, List.find?_filter]
        congr 1
        funext w
        by_cases hw : w.id = id
        · simp [hw, hd]
        · simp [hw]
      rw [hsame, h] at h'
      obtain rfl : r = r' := Option.some.inj h'
      exact ⟨rfl, rfl, rfl, rfl, fun hu => hu⟩

theorem store_ops_preserve_payload_and_monotone_witness :
    vid0u.id = vid0.id ∧ vid0u.blob = vid0.blob ∧
    vid0u.timestamp = vid0.timestamp ∧ vid0u.fileName = vid0.fileName ∧
    (vid0.uploaded = true → vid0u.uploaded = true) :=
  store_ops_preserve_payload_and_monotone [vid0] (.mark "video_1_a")
    "video_1_a" vid0 vid0u (by decide) (by decide)

/-- C10: the force-fail strategy's behavior is independent of the record:
it consumes no payload, and any two runs return the identical failing
Outcome with the same message and emit the identical notification
sequence. -/
theorem forceFail_independent_of_record (b1 b2 : Blob) (e1 e2 : UploadEnv) :
    runStrategy .forceFail b1 e1 = runStrategy .forceFail b2 e2 ∧
    (runStrategy .forceFail b1 e1).2.success = false ∧
    (runStrategy .forceFail b1 e1).2.message
      = "Network connection lost - Upload failed" ∧
    (runStrategy .forceFail b1 e1).1.map (fun p => (p.status, p.progress))
      = [(.uploading, 0), (.uploading, 20), (.uploading, 40), (.uploading, 60),
         (.failed, 0)] :=
  ⟨rfl, rfl, rfl, rfl⟩

end VideoApp
